import Mathlib

/-!
Verification of the r2d2 Redis client (RESP2/RESP3 protocol codec).

This file shallowly embeds the TypeScript source of the r2d2 client:

- the request encoder createRequest (mod.ts),
- the reply decoder readReply (mod.ts), which consumes CRLF-delimited
  frames and parses one typed reply, dispatching on a one-byte prefix,
- the first-generation decoder v1ReadReply (the deno.land-era mod.ts),
  which additionally implements RESP3 streamed (chunked) replies,
- the frame splitter readLines (mod.ts), a modified-KMP scanner over
  physical reads,
- the promise-chain command queue of RedisClient (mod.ts).

Modelling conventions:

- Frames are modelled as decoded text (String); the dispatch prefixes are
  ASCII, so taking the first character coincides with taking the first
  byte, and the payload slice value.slice(1) coincides with dropping the
  first character.  Binary frames that are not valid UTF-8 are outside
  the model.
- JavaScript numbers are modelled by JsNumber: an exact integer (every
  value produced by the sources on integer text is an integer-valued
  double, represented by its value after rounding to the nearest binary64
  float via roundToDouble), or one of Infinity, -Infinity, NaN.  Only the
  sign-and-digits fragment of the Number() grammar is modelled (the
  fragment RESP frames exercise); other inputs map to NaN.
- Asynchronous iteration is modelled by explicit state passing: a decoder
  step maps the remaining frame list to an outcome together with the
  frames left over, so consumption of the stream is observable.
- Recursion through the untyped reply structure is made total with an
  explicit fuel parameter; outOfFuel is an artifact of the embedding and
  never occurs for adequately fueled runs.
-/

set_option maxRecDepth 4096

/-- Value of a JavaScript number as produced by Number() on RESP payload
text: an exact integer-valued double, or one of the special values. -/
inductive JsNumber where
  | int (n : Int)
  | inf
  | negInf
  | nan
deriving DecidableEq, Repr

/-- Parsed Redis reply (the Reply union type of mod.ts).  Maps are kept as
the decoded key/value pairs in arrival order; the property-key coercion of
Object.fromEntries is not modelled (no claim concerns it). -/
inductive RValue where
  | str (s : String)
  | num (x : JsNumber)
  | big (n : Int)
  | bool (b : Bool)
  | null
  | arr (xs : List RValue)
  | obj (xs : List (RValue × RValue))
  | set (xs : List RValue)
deriving Repr

/-- Failure outcomes of a decode step.  noReply is the TypeError
"No reply received" thrown on an empty frame; server and blob carry the
rejected message text of - and ! replies; syntaxError models BigInt()
throwing on malformed text; typeError models calling a string method on a
non-string reply; outOfFuel is the embedding artifact. -/
inductive DecodeErr where
  | noReply
  | server (msg : String)
  | blob (msg : String)
  | syntaxError
  | typeError
  | outOfFuel
deriving DecidableEq, Repr

/-- Value of a list of decimal digit characters. -/
def natOfDigits (cs : List Char) : Nat :=
  cs.foldl (fun a c => 10 * a + (c.toNat - 48)) 0

/-- Reading of a string as a decimal integer: an optional minus sign
followed by at least one digit.  This is the fragment of the JavaScript
Number() grammar that RESP payloads exercise. -/
def parseDecInt (s : String) : Option Int :=
  match s.data with
  | [] => none
  | '-' :: cs =>
    if cs ≠ [] ∧ cs.all Char.isDigit then some (-(natOfDigits cs : Int)) else none
  | cs =>
    if cs.all Char.isDigit then some ((natOfDigits cs : Int)) else none

/-- Floor of the base-2 logarithm, with explicit fuel (the first argument)
so that the kernel can evaluate it. -/
def log2Aux : Nat → Nat → Nat
  | 0, _ => 0
  | fuel + 1, n => if n < 2 then 0 else log2Aux fuel (n / 2) + 1

/-- Rounding of an integer to the nearest IEEE-754 binary64 value
(round-to-nearest, ties-to-even), expressed on exact integers: values of
magnitude at most 2^53 are exact; larger values keep their top 53
significand bits with the tie broken to even. -/
def roundToDouble (n : Int) : Int :=
  let a := n.natAbs
  if a ≤ 2 ^ 53 then n
  else
    let e := log2Aux a a - 52
    let q := a / 2 ^ e
    let r := a % 2 ^ e
    let q' := if 2 * r < 2 ^ e then q
      else if 2 ^ e < 2 * r then q + 1
      else if q % 2 = 0 then q else q + 1
    Int.sign n * (q' * 2 ^ e : Nat)

/-- JavaScript Number() on the payload strings this codec meets: the empty
string is 0, sign-and-digits text denotes the rounded integer, and
everything else is NaN.  (Whitespace, fraction, exponent and radix forms
of the full Number() grammar never occur in RESP frames.) -/
def jsNumber (s : String) : JsNumber :=
  if s = "" then .int 0
  else
    match parseDecInt s with
    | some n => .int (roundToDouble n)
    | none => .nan

/-- ECMAScript ToLength of a number, as applied by Array.fromAsync to the
length property: NaN and negative values give 0, and the result is clamped
to 2^53 - 1. -/
def jsToLength (x : JsNumber) : Nat :=
  match x with
  | .int n => if n < 0 then 0 else min n.toNat (2 ^ 53 - 1)
  | .inf => 2 ^ 53 - 1
  | .negInf => 0
  | .nan => 0

/-- Doubling of a JavaScript number (the length * 2 computation of the map
and attribute branches).  Doubling an integer-valued double is exact. -/
def jsMul2 (x : JsNumber) : JsNumber :=
  match x with
  | .int n => .int (2 * n)
  | .inf => .inf
  | .negInf => .negInf
  | .nan => .nan

/-- Number parsing of the integer and double branches (readNumber in the
sources): the literal texts inf and -inf map to the infinities before
falling back to Number(). -/
def readNumber (s : String) : JsNumber :=
  if s = "inf" then .inf
  else if s = "-inf" then .negInf
  else jsNumber s

/-- JavaScript BigInt() on payload text: the empty string is 0 and
sign-and-digits text is exact; other text throws (None). -/
def parseBigInt (s : String) : Option Int :=
  if s = "" then some 0 else parseDecInt s

/-- Decimal digit character. -/
def digitChar (n : Nat) : Char := Char.ofNat (48 + n)

/-- Decimal digit list of a natural number, with explicit fuel (always
called with fuel larger than the digit count). -/
def natDigitsAux : Nat → Nat → List Char
  | 0, _ => []
  | fuel + 1, n =>
    if n < 10 then [digitChar n]
    else natDigitsAux fuel (n / 10) ++ [digitChar (n % 10)]

/-- Base-10 text of a natural number (JavaScript Number.prototype.toString
on non-negative integers). -/
def natText (n : Nat) : String := ⟨natDigitsAux (n + 1) n⟩

/-- Base-10 text of an integer (JavaScript toString on integer-valued
numbers). -/
def intText (i : Int) : String :=
  if i < 0 then "-" ++ natText i.natAbs else natText i.natAbs

/-- UTF-8 encoding of one unicode scalar value. -/
def utf8Char (c : Char) : List Nat :=
  let n := c.toNat
  if n < 128 then [n]
  else if n < 2048 then [192 + n / 64, 128 + n % 64]
  else if n < 65536 then [224 + n / 4096, 128 + (n / 64) % 64, 128 + n % 64]
  else [240 + n / 262144, 128 + (n / 4096) % 64, 128 + (n / 64) % 64, 128 + n % 64]

/-- UTF-8 encoding of a string (TextEncoder.encode), as a byte list. -/
def utf8 (s : String) : List Nat := s.data.flatMap utf8Char

/-- Command argument: text, an (integer-valued) number, or raw bytes
(Uint8Array).  Fractional doubles as arguments are not modelled. -/
inductive Arg where
  | str (s : String)
  | num (n : Int)
  | bytes (b : List Nat)

/-- Encoded form of one argument: arg instanceof Uint8Array ? arg :
encoder.encode(arg.toString()). -/
def argBytes : Arg → List Nat
  | .str s => utf8 s
  | .num n => utf8 (intText n)
  | .bytes b => b

/-- Request encoder createRequest of mod.ts: the lines array (one header
line, then per argument a length line, the raw bytes, and a CRLF),
concatenated. -/
def createRequest (command : List Arg) : List Nat :=
  utf8 ("*" ++ natText command.length ++ "\r\n") ++
    command.flatMap (fun arg =>
      utf8 ("$" ++ natText (argBytes arg).length ++ "\r\n") ++ argBytes arg ++ utf8 "\r\n")

/-- Pairing of consecutive elements (chunk(array, 2) fed to
Object.fromEntries); a dangling odd element is dropped (the sources only
produce even counts here). -/
def chunkPairs : List RValue → List (RValue × RValue)
  | a :: b :: rest => (a, b) :: chunkPairs rest
  | _ => []

/-- Whether a reply value is a JavaScript primitive (compared by value in
a Set) rather than an object (compared by reference). -/
def isPrimitive : RValue → Bool
  | .arr _ => false
  | .obj _ => false
  | .set _ => false
  | _ => true

/-- SameValueZero comparison restricted to primitive replies; object
values (arrays, maps, sets) are never equal as the decoder always
constructs fresh objects. -/
def primEq : RValue → RValue → Bool
  | .str a, .str b => decide (a = b)
  | .num a, .num b => decide (a = b)
  | .big a, .big b => decide (a = b)
  | .bool a, .bool b => decide (a = b)
  | .null, .null => true
  | _, _ => false

/-- One insertion step of the JavaScript Set constructor: a primitive
already present (by SameValueZero) is skipped, everything else is appended
in insertion order. -/
def jsSetInsert (acc : List RValue) (v : RValue) : List RValue :=
  if isPrimitive v && acc.any (primEq v) then acc else acc ++ [v]

/-- Contents of new Set(xs), in insertion order. -/
def jsSet (xs : List RValue) : List RValue := xs.foldl jsSetInsert []

/-- One iterator.next() on the frame stream.  At end of stream the line
splitter has already yielded its (possibly empty) carry-over, so an
exhausted stream reads as an empty frame. -/
def nextFrame : List String → List Char × List String
  | [] => ([], [])
  | f :: rest => (f.data, rest)

/-- readNReplies of mod.ts: reads a fixed number of replies with the given
step function, propagating the first failure (and the frames consumed up
to it). -/
def readManyStep (step : List String → Except DecodeErr RValue × List String) :
    Nat → List String → Except DecodeErr (List RValue) × List String
  | 0, frames => (.ok [], frames)
  | n + 1, frames =>
    match step frames with
    | (.ok v, r) =>
      match readManyStep step n r with
      | (.ok vs, r') => (.ok (v :: vs), r')
      | (.error e, r') => (.error e, r')
    | (.error e, r) => (.error e, r)

/-- Reply decoder readReply of mod.ts (the current RedisClient module),
with raw = false.  Consumes one or more frames and produces one reply or a
failure, together with the remaining frames. -/
def readReply : Nat → List String → Except DecodeErr RValue × List String
  | 0, frames => (.error .outOfFuel, frames)
  | fuel + 1, frames =>
    match nextFrame frames with
    | ([], rest) => (.error .noReply, rest)
    | (c :: cs, rest) =>
      let line : String := ⟨cs⟩
      match c with
      | '*' | '>' =>
        if jsNumber line = .int (-1) then (.ok .null, rest)
        else
          match readManyStep (readReply fuel) (jsToLength (jsNumber line)) rest with
          | (.ok rs, r) => (.ok (.arr rs), r)
          | (.error e, r) => (.error e, r)
      | '|' =>
        match readManyStep (readReply fuel) (jsToLength (jsMul2 (jsNumber line))) rest with
        | (.ok _, r) => readReply fuel r
        | (.error e, r) => (.error e, r)
      | '(' =>
        match parseBigInt line with
        | some n => (.ok (.big n), rest)
        | none => (.error .syntaxError, rest)
      | '!' =>
        match nextFrame rest with
        | (m, r) => (.error (.blob ⟨m⟩), r)
      | '#' => (.ok (.bool (decide (line = "t"))), rest)
      | '$' | '=' =>
        if jsNumber line = .int (-1) then (.ok .null, rest)
        else
          match nextFrame rest with
          | (v, r) => (.ok (.str ⟨v⟩), r)
      | ',' | ':' => (.ok (.num (readNumber line)), rest)
      | '-' => (.error (.server line), rest)
      | '%' =>
        match readManyStep (readReply fuel) (jsToLength (jsMul2 (jsNumber line))) rest with
        | (.ok rs, r) => (.ok (.obj (chunkPairs rs)), r)
        | (.error e, r) => (.error e, r)
      | '_' => (.ok .null, rest)
      | '~' =>
        match readManyStep (readReply fuel) (jsToLength (jsNumber line)) rest with
        | (.ok rs, r) => (.ok (.set (jsSet rs)), r)
        | (.error e, r) => (.error e, r)
      | '+' => (.ok (.str line), rest)
      | _ => (.ok (.str ⟨c :: cs⟩), rest)

/-- Decoding of a complete frame list, with fuel adequate for its depth. -/
def decodeReply (frames : List String) : Except DecodeErr RValue × List String :=
  readReply (frames.length + 1) frames

/-- Strict-equality comparison of a reply against a string delimiter
(reply === delimiter in the streamed-reply loops). -/
def rvEqStr : RValue → String → Bool
  | .str s, d => decide (s = d)
  | _, _ => false

/-- readStreamedReply of the first-generation mod.ts: reads replies with
the given step until one is strictly equal to the string delimiter, which
is dropped.  Fueled by its first numeric argument. -/
def readUntilStep (step : List String → Except DecodeErr RValue × List String)
    (delim : String) :
    Nat → List String → Except DecodeErr (List RValue) × List String
  | 0, frames => (.error .outOfFuel, frames)
  | fuel + 1, frames =>
    match step frames with
    | (.ok v, r) =>
      if rvEqStr v delim then (.ok [], r)
      else
        match readUntilStep step delim fuel r with
        | (.ok vs, r') => (.ok (v :: vs), r')
        | (.error e, r') => (.error e, r')
    | (.error e, r) => (.error e, r)

/-- Unbounded reading used when a for loop bound is Infinity: replies are
read until a step fails (the failure propagates). -/
def readManyInf (step : List String → Except DecodeErr RValue × List String) :
    Nat → List String → Except DecodeErr (List RValue) × List String
  | 0, frames => (.error .outOfFuel, frames)
  | fuel + 1, frames =>
    match step frames with
    | (.ok v, r) =>
      match readManyInf step fuel r with
      | (.ok vs, r') => (.ok (v :: vs), r')
      | (.error e, r') => (.error e, r')
    | (.error e, r) => (.error e, r)

/-- readNReplies of the first-generation mod.ts, whose loop bound is a raw
JavaScript number: for (let i = 0; i < length; i++).  NaN and -Infinity
admit no iterations, an integer bound n admits max(n, 0) iterations, and
Infinity loops until a read fails. -/
def v1ReadN (step : List String → Except DecodeErr RValue × List String)
    (fuel : Nat) :
    JsNumber → List String → Except DecodeErr (List RValue) × List String
  | .int n => readManyStep step n.toNat
  | .inf => readManyInf step fuel
  | .negInf => readManyStep step 0
  | .nan => readManyStep step 0

/-- Chunk post-processing of readStreamedString: filter out the lines
beginning with the character ; (the chunk byte counts) and join the rest.
Applying the string test to a non-string reply throws a TypeError, as in
JavaScript.  A single-character prefix test startsWith(";") is the test of
the head character. -/
def v1JoinChunks : List RValue → Except DecodeErr String
  | [] => .ok ""
  | .str s :: rest =>
    match v1JoinChunks rest with
    | .ok t => .ok ((if s.data.head? = some ';' then "" else s) ++ t)
    | .error e => .error e
  | _ :: _ => .error .typeError

/-- Reply decoder readReply of the first-generation (deno.land-era)
mod.ts, the variant that implements RESP3 streamed replies: a second
character ? marks a streamed aggregate (terminated by a . line) or a
streamed string (terminated by the ;0 line).  An exhausted iterator throws
(reading value[0] of undefined), while an empty frame falls through to the
no-prefix branch and decodes as the empty string. -/
def v1ReadReply : Nat → List String → Except DecodeErr RValue × List String
  | 0, frames => (.error .outOfFuel, frames)
  | _ + 1, [] => (.error .typeError, [])
  | fuel + 1, f :: rest =>
    match f.data with
    | [] => (.ok (.str ""), rest)
    | c :: cs =>
      let line : String := ⟨cs⟩
      match c with
      | '*' | '>' =>
        if cs.head? = some '?' then
          match readUntilStep (v1ReadReply fuel) "." fuel rest with
          | (.ok rs, r) => (.ok (.arr rs), r)
          | (.error e, r) => (.error e, r)
        else if readNumber line = .int (-1) then (.ok .null, rest)
        else
          match v1ReadN (v1ReadReply fuel) fuel (readNumber line) rest with
          | (.ok rs, r) => (.ok (.arr rs), r)
          | (.error e, r) => (.error e, r)
      | '|' =>
        match v1ReadN (v1ReadReply fuel) fuel (jsMul2 (readNumber line)) rest with
        | (.ok _, r) => v1ReadReply fuel r
        | (.error e, r) => (.error e, r)
      | '(' =>
        match parseBigInt line with
        | some n => (.ok (.big n), rest)
        | none => (.error .syntaxError, rest)
      | '!' =>
        match nextFrame rest with
        | (m, r) => (.error (.blob ⟨m⟩), r)
      | '#' => (.ok (.bool (decide (line = "t"))), rest)
      | '$' | '=' =>
        if cs.head? = some '?' then
          match readUntilStep (v1ReadReply fuel) ";0" fuel rest with
          | (.ok rs, r) =>
            match v1JoinChunks rs with
            | .ok t => (.ok (.str t), r)
            | .error e => (.error e, r)
          | (.error e, r) => (.error e, r)
        else if readNumber line = .int (-1) then (.ok .null, rest)
        else
          match nextFrame rest with
          | (v, r) => (.ok (.str ⟨v⟩), r)
      | ',' | ':' => (.ok (.num (readNumber line)), rest)
      | '-' => (.error (.server line), rest)
      | '%' =>
        if cs.head? = some '?' then
          match readUntilStep (v1ReadReply fuel) "." fuel rest with
          | (.ok rs, r) => (.ok (.obj (chunkPairs rs)), r)
          | (.error e, r) => (.error e, r)
        else
          match v1ReadN (v1ReadReply fuel) fuel (jsMul2 (readNumber line)) rest with
          | (.ok rs, r) => (.ok (.obj (chunkPairs rs)), r)
          | (.error e, r) => (.error e, r)
      | '_' => (.ok .null, rest)
      | '~' =>
        if cs.head? = some '?' then
          match readUntilStep (v1ReadReply fuel) "." fuel rest with
          | (.ok rs, r) => (.ok (.set (jsSet rs)), r)
          | (.error e, r) => (.error e, r)
        else if readNumber line = .int (-1) then (.ok (.set []), rest)
        else
          match v1ReadN (v1ReadReply fuel) fuel (readNumber line) rest with
          | (.ok rs, r) => (.ok (.set (jsSet rs)), r)
          | (.error e, r) => (.error e, r)
      | '+' => (.ok (.str line), rest)
      | _ => (.ok (.str ⟨c :: cs⟩), rest)

/-- First-generation decoding of a complete frame list with generous
fuel. -/
def v1DecodeReply (frames : List String) : Except DecodeErr RValue × List String :=
  v1ReadReply (2 * frames.length + 2) frames

/-- Byte of the 1024-byte read buffer at an index: real data inside the
returned read, the zero fill of the fresh Uint8Array up to 1024, undefined
(none) beyond. -/
def inspectByte (bs : List Nat) (i : Nat) : Option Nat :=
  match bs.get? i with
  | some b => some b
  | none => if i < 1024 then some 0 else none

/-- Byte of the two-byte CRLF delimiter at an index (undefined outside). -/
def crlfByte (i : Nat) : Option Nat := [13, 10].get? i

/-- Inner scan loop of readLines (mod.ts): while inspectIndex <
chunks.length, compare the current read buffer at localIndex with the
delimiter at matchIndex; on a full match yield everything before the CRLF
and reset; on a mismatch advance only when matchIndex is 0.  Fueled; none
means the loop has not terminated within the given fuel. -/
def scanStep :
    Nat → List Nat → List Nat → Nat → Nat → Nat → List (List Nat) →
      Option (List (List Nat) × List Nat × Nat × Nat)
  | 0, _, _, _, _, _, _ => none
  | fuel + 1, chunks, bs, inspectIndex, matchIndex, localIndex, acc =>
    if inspectIndex < chunks.length then
      if inspectByte bs localIndex = crlfByte matchIndex then
        if matchIndex + 1 = 2 then
          scanStep fuel (chunks.drop (inspectIndex + 1)) bs 0 0 (localIndex + 1)
            (acc ++ [chunks.take (inspectIndex + 1 - 2)])
        else scanStep fuel chunks bs (inspectIndex + 1) (matchIndex + 1) (localIndex + 1) acc
      else if matchIndex = 0 then
        scanStep fuel chunks bs (inspectIndex + 1) matchIndex (localIndex + 1) acc
      else scanStep fuel chunks bs inspectIndex matchIndex localIndex acc
    else some (acc, chunks, inspectIndex, matchIndex)

/-- Outer loop of readLines over the physical reads: append the read to
the carried buffer, run the scanner, and at end of stream yield the
(possibly empty) carry-over as a final frame. -/
def readLinesGo (fuel : Nat) :
    List (List Nat) → List Nat → Nat → Nat → List (List Nat) →
      Option (List (List Nat))
  | [], chunks, _, _, acc => some (acc ++ [chunks])
  | bs :: reads, chunks, inspectIndex, matchIndex, acc =>
    match scanStep fuel (chunks ++ bs) bs inspectIndex matchIndex 0 acc with
    | none => none
    | some (acc', chunks', inspectIndex', matchIndex') =>
      readLinesGo fuel reads chunks' inspectIndex' matchIndex' acc'

/-- Frame splitter readLines of mod.ts, over a list of physical reads
(byte lists); the result is the list of yielded frames, or none when the
scanner fails to terminate within the given fuel at some read. -/
def readLines (fuel : Nat) (reads : List (List Nat)) : Option (List (List Nat)) :=
  readLinesGo fuel reads [] 0 0 []

/-- State of the connection shared by the queue: the bytes written so far
and the frames the server has made available for reading.  The line
reader's buffering is abstracted into this frame stream. -/
structure ConnState where
  sent : List Nat
  frames : List String
deriving Repr

/-- One logical operation submitted to the RedisClient queue. -/
inductive Op where
  | send (cmd : List Arg)
  | write (cmd : List Arg)
  | pipeline (cmds : List (List Arg))

/-- Bytes an operation writes to the connection. -/
def opRequest : Op → List Nat
  | .send cmd => createRequest cmd
  | .write cmd => createRequest cmd
  | .pipeline cmds => cmds.flatMap createRequest

/-- Execution of one operation alone on the connection: sendCommand writes
the request then reads one reply; writeCommand only writes (its promise
resolves with undefined, modelled as null); pipelineCommands writes all
requests then reads one reply per command. -/
def runOp (conn : ConnState) : Op → Except DecodeErr RValue × ConnState
  | .send cmd =>
    let sent' := conn.sent ++ createRequest cmd
    match readReply (conn.frames.length + 1) conn.frames with
    | (.ok v, fr) => (.ok v, ⟨sent', fr⟩)
    | (.error e, fr) => (.error e, ⟨sent', fr⟩)
  | .write cmd => (.ok .null, ⟨conn.sent ++ createRequest cmd, conn.frames⟩)
  | .pipeline cmds =>
    let sent' := conn.sent ++ cmds.flatMap createRequest
    match readManyStep (readReply (conn.frames.length + 1)) cmds.length conn.frames with
    | (.ok rs, fr) => (.ok (.arr rs), ⟨sent', fr⟩)
    | (.error e, fr) => (.error e, ⟨sent', fr⟩)

/-- The promise chain of RedisClient (this.queue = this.queue.then(task)),
under the sequential-execution abstraction: tasks run one at a time in
submission order.  A then-continuation on a rejected chain never runs its
task and propagates the rejection, so once the chain is rejected every
later caller receives the earlier rejection and its operation is skipped
entirely. -/
def runQueue :
    ConnState → Except DecodeErr Unit → List Op →
      List (Except DecodeErr RValue) × ConnState
  | conn, _, [] => ([], conn)
  | conn, .error e, _ :: ops =>
    let (res, conn') := runQueue conn (.error e) ops
    (.error e :: res, conn')
  | conn, .ok _, op :: ops =>
    let (r, conn') := runOp conn op
    let q : Except DecodeErr Unit :=
      match r with
      | .ok _ => .ok ()
      | .error e => .error e
    let (res, conn'') := runQueue conn' q ops
    (r :: res, conn'')

/-- Outcomes delivered to a sequence of callers of one RedisClient,
starting from a freshly resolved queue. -/
def runClient (conn : ConnState) (ops : List Op) :
    List (Except DecodeErr RValue) × ConnState :=
  runQueue conn (.ok ()) ops

/-- Reference semantics: every operation runs, one at a time, in
submission order, each receiving its own operation's outcome. -/
def runSequential : ConnState → List Op → List (Except DecodeErr RValue) × ConnState
  | conn, [] => ([], conn)
  | conn, op :: ops =>
    let (r, conn') := runOp conn op
    let (res, conn'') := runSequential conn' ops
    (r :: res, conn'')

/-- CRLF as bytes. -/
def crlfBytes : List Nat := [13, 10]

/-- Rendering of one argument by the words of the specification: a $
line carrying the exact byte length of the encoded form, the raw bytes,
and a CRLF. -/
def specArgBytes (a : Arg) : List Nat :=
  utf8 "$" ++ utf8 (natText (argBytes a).length) ++ crlfBytes ++ argBytes a ++ crlfBytes

/-- Request wire format by the words of the specification: the bytes *N
CRLF followed by, for each argument in order, its rendering. -/
def specRequest (cmd : List Arg) : List Nat :=
  utf8 "*" ++ utf8 (natText cmd.length) ++ crlfBytes ++ (cmd.map specArgBytes).flatten

/-- Wire frames of a streamed bulk string with the given chunk contents:
for each chunk a semicolon marker line carrying its byte length and then
the chunk itself, terminated by the zero-length marker. -/
def streamedFrames (chunks : List String) : List String :=
  chunks.flatMap (fun c => [";" ++ natText (utf8 c).length, c]) ++ [";0"]

/-- Concatenation of a list of strings in order. -/
def concatAll (xs : List String) : String := xs.foldr (fun a b => a ++ b) ""

/-- Whether a chunk's text is non-empty and begins with none of the RESP
dispatch prefixes nor the semicolon, so that the first-generation decoder
returns it verbatim through the no-prefix branch. -/
def plainHead (c : String) : Bool :=
  match c.data with
  | [] => false
  | h :: _ =>
    !(h ∈ ['*', '>', '|', '(', '!', '#', '$', '=', ',', ':', '-', '%', '_', '~', '+', ';'])


/-! ## General lemmas -/

theorem utf8_append (s t : String) : utf8 (s ++ t) = utf8 s ++ utf8 t := by
  cases s; cases t; simp [utf8]

theorem utf8_crlf : utf8 "\r\n" = crlfBytes := rfl

theorem readManyStep_length
    (step : List String → Except DecodeErr RValue × List String) :
    ∀ (n : Nat) (frames : List String) (rs : List RValue) (rest : List String),
      readManyStep step n frames = (.ok rs, rest) → rs.length = n := by
  intro n
  induction n with
  | zero =>
    intro frames rs rest h
    simp only [readManyStep, Prod.mk.injEq] at h
    obtain ⟨h1, _⟩ := h
    rw [← Except.ok.inj h1]
    rfl
  | succ n ih =>
    intro frames rs rest h
    simp only [readManyStep] at h
    split at h
    · split at h
      · rename_i vs r' hrec
        simp only [Prod.mk.injEq] at h
        obtain ⟨h1, _⟩ := h
        rw [← Except.ok.inj h1, List.length_cons, ih _ _ _ hrec]
      · simp at h
    · simp at h

theorem primEq_eq_true_iff (a b : RValue) :
    primEq a b = true ↔ a = b ∧ isPrimitive a = true := by
  cases a <;> cases b <;> simp [primEq, isPrimitive]

theorem jsNumber_parse (s : String) (n : Int) (h : parseDecInt s = some n) :
    jsNumber s = .int (roundToDouble n) := by
  have hne : s ≠ "" := by
    intro he
    rw [he] at h
    exact Option.noConfusion h
  simp [jsNumber, hne, h]

theorem readNumber_parse (s : String) (n : Int) (h : parseDecInt s = some n) :
    readNumber s = .int (roundToDouble n) := by
  have h1 : s ≠ "inf" := by
    intro he
    rw [he, show parseDecInt "inf" = none from by decide] at h
    exact Option.noConfusion h
  have h2 : s ≠ "-inf" := by
    intro he
    rw [he, show parseDecInt "-inf" = none from by decide] at h
    exact Option.noConfusion h
  simp [readNumber, h1, h2, jsNumber_parse s n h]

theorem roundToDouble_self (n : Int) (h1 : -(2 ^ 53) ≤ n) (h2 : n ≤ 2 ^ 53) :
    roundToDouble n = n := by
  have h : n.natAbs ≤ 2 ^ 53 := by omega
  simp only [roundToDouble]
  rw [if_pos h]

/-! ## Branch equations of the current decoder (definitional) -/

theorem readReply_colon (f : Nat) (s : String) (rest : List String) :
    readReply (f + 1) ((⟨':' :: s.data⟩ : String) :: rest) =
      (.ok (.num (readNumber s)), rest) := rfl

theorem readReply_dash (f : Nat) (s : String) (rest : List String) :
    readReply (f + 1) ((⟨'-' :: s.data⟩ : String) :: rest) =
      (.error (.server s), rest) := rfl

theorem readReply_hash (f : Nat) (s : String) (rest : List String) :
    readReply (f + 1) ((⟨'#' :: s.data⟩ : String) :: rest) =
      (.ok (.bool (decide (s = "t"))), rest) := rfl

theorem readReply_star (f : Nat) (s : String) (rest : List String) :
    readReply (f + 1) ((⟨'*' :: s.data⟩ : String) :: rest) =
      (if jsNumber s = .int (-1) then ((.ok .null : Except DecodeErr RValue), rest)
       else
        match readManyStep (readReply f) (jsToLength (jsNumber s)) rest with
        | (.ok rs, r) => (.ok (.arr rs), r)
        | (.error e, r) => (.error e, r)) := rfl

theorem readReply_tilde (f : Nat) (s : String) (rest : List String) :
    readReply (f + 1) ((⟨'~' :: s.data⟩ : String) :: rest) =
      (match readManyStep (readReply f) (jsToLength (jsNumber s)) rest with
       | (.ok rs, r) => (.ok (.set (jsSet rs)), r)
       | (.error e, r) => (.error e, r)) := rfl

/-! ## Set dedup lemmas -/

theorem jsSetInsert_pairwise (acc : List RValue) (v : RValue)
    (h : acc.Pairwise fun a b => primEq a b = true → isPrimitive a = false) :
    (jsSetInsert acc v).Pairwise fun a b => primEq a b = true → isPrimitive a = false := by
  unfold jsSetInsert
  split
  · exact h
  · rename_i hcond
    rw [List.pairwise_append]
    refine ⟨h, List.pairwise_singleton _ _, ?_⟩
    intro a ha b hb
    rw [List.mem_singleton] at hb
    subst hb
    intro hpe
    obtain ⟨hab, hpa⟩ := (primEq_eq_true_iff a b).mp hpe
    subst hab
    exfalso
    apply hcond
    rw [Bool.and_eq_true]
    exact ⟨hpa, List.any_eq_true.mpr ⟨a, ha, (primEq_eq_true_iff a a).mpr ⟨rfl, hpa⟩⟩⟩

theorem jsSet_foldl_pairwise : ∀ (xs acc : List RValue),
    acc.Pairwise (fun a b => primEq a b = true → isPrimitive a = false) →
    (xs.foldl jsSetInsert acc).Pairwise fun a b => primEq a b = true → isPrimitive a = false := by
  intro xs
  induction xs with
  | nil => intro acc h; exact h
  | cons v xs ih =>
    intro acc h
    exact ih _ (jsSetInsert_pairwise acc v h)

/-! ## Claims about the current decoder -/

/-- Claim C3: a simple error reply fails with exactly the server-supplied
message text, character for character (for every payload, the rejection
carries the text after the dash unchanged), the error consumes exactly its
own frame, and on the stream -ERR bad CRLF +OK CRLF the first read fails
with message "ERR bad" while the second read returns "OK". -/
theorem claim_C3 :
    (∀ (msg : String) (f : Nat) (rest : List String),
      readReply (f + 1) ((⟨'-' :: msg.data⟩ : String) :: rest) =
        (.error (.server msg), rest)) ∧
    decodeReply ["-ERR bad", "+OK"] = (.error (.server "ERR bad"), ["+OK"]) ∧
    decodeReply ["+OK"] = (.ok (.str "OK"), []) :=
  ⟨fun _ _ _ => rfl, rfl, rfl⟩

/-- Claim C9: when the stream ends while a reply is awaited (the line
reader yields only its empty carry-over), readReply fails with the
distinct no-reply error, and that error differs from every server-reported
error (simple or blob) whatever its message text. -/
theorem claim_C9 :
    ((∀ f : Nat, readReply (f + 1) [] = (.error .noReply, [])) ∧
      ∀ (f : Nat) (rest : List String),
        readReply (f + 1) ("" :: rest) = (.error .noReply, rest)) ∧
    (∀ msg : String,
      DecodeErr.noReply ≠ DecodeErr.server msg ∧ DecodeErr.noReply ≠ DecodeErr.blob msg) :=
  ⟨⟨fun _ => rfl, fun _ _ => rfl⟩, fun _ => ⟨(fun h => nomatch h), (fun h => nomatch h)⟩⟩

/-- Claim C10: a boolean reply decodes to true exactly when the payload is
the single character t; every other payload (f, empty, arbitrary text)
decodes to false without an error. -/
theorem claim_C10 :
    (∀ (s : String) (f : Nat) (rest : List String),
      readReply (f + 1) ((⟨'#' :: s.data⟩ : String) :: rest) =
        (.ok (.bool (decide (s = "t"))), rest)) ∧
    (∀ s : String, decide (s = "t") = true ↔ s = "t") ∧
    decodeReply ["#t"] = (.ok (.bool true), []) ∧
    decodeReply ["#f"] = (.ok (.bool false), []) ∧
    decodeReply ["#"] = (.ok (.bool false), []) ∧
    decodeReply ["#banana"] = (.ok (.bool false), []) :=
  ⟨fun _ _ _ => rfl, fun _ => by simp, rfl, rfl, rfl, rfl⟩

/-- Claim C4 (counterexample): the integer reply with payload
9007199254740993 = 2^53 + 1, which is in the signed 64-bit range, decodes
to 9007199254740992, not to itself: Number() rounds to the nearest
binary64 value, so readReply does lose precision inside the 64-bit
range. -/
theorem claim_C4_counterexample :
    decodeReply [":9007199254740993"] = (.ok (.num (.int 9007199254740992)), []) ∧
    (9007199254740992 : Int) ≠ 9007199254740993 :=
  ⟨rfl, by decide⟩

/-- Claim C4 (amended): for every integer reply whose payload text reads
as an integer n with magnitude at most 2^53 (the contiguous
exactly-representable range of JavaScript doubles), readReply returns
exactly n; outside that range the value is rounded to the nearest
double. -/
theorem claim_C4_amended (s : String) (n : Int) (f : Nat) (rest : List String)
    (hp : parseDecInt s = some n) (hlo : -(2 ^ 53) ≤ n) (hhi : n ≤ 2 ^ 53) :
    readReply (f + 1) ((⟨':' :: s.data⟩ : String) :: rest) = (.ok (.num (.int n)), rest) := by
  rw [readReply_colon, readNumber_parse s n hp, roundToDouble_self n hlo hhi]

theorem claim_C4_witness :
    parseDecInt "42" = some 42 ∧
    readReply 1 [(⟨':' :: "42".data⟩ : String)] = (.ok (.num (.int 42)), []) :=
  ⟨by decide, claim_C4_amended "42" 42 0 [] (by decide) (by decide) (by decide)⟩

/-- Claim C5 (counterexample): at the declared count exactly 2^53 the
decoder does not read exactly N replies, refuting the claim's "for every
non-negative declared count N".  The payload 9007199254740992 = 2^53
parses exactly (it is representable), but the count handed to the
reply-reading loop goes through ToLength (Array.fromAsync on a length
property), which clamps it to 2^53 - 1: on the header *9007199254740992
the decoder runs the loop with count 2^53 - 1, one reply fewer than
declared (readManyStep reads exactly its count argument, per
readManyStep_length). -/
theorem claim_C5_counterexample :
    jsNumber "9007199254740992" = .int (2 ^ 53) ∧
    jsToLength (jsNumber "9007199254740992") = 2 ^ 53 - 1 ∧
    ((2 ^ 53 - 1 : Nat) ≠ 2 ^ 53) ∧
    readReply 2 [(⟨'*' :: "9007199254740992".data⟩ : String)] =
      (match readManyStep (readReply 1) (2 ^ 53 - 1) [] with
       | (.ok rs, r) => ((.ok (.arr rs) : Except DecodeErr RValue), r)
       | (.error e, r) => (.error e, r)) :=
  ⟨rfl, rfl, by decide, rfl⟩

/-- Claim C5 (amended): the null array header *-1 decodes to null while
*0 decodes to the empty array (never conflated), and for every
non-negative declared count n below 2^53 the decoder reads exactly n
subsequent replies into an ordered sequence: whenever reading n replies
from the remaining frames succeeds with the list rs, the array reply is
exactly rs and rs has length n.  At counts of 2^53 and above the
Number()/ToLength pipeline rounds or clamps the count, so the decoder
reads fewer replies than declared. -/
theorem claim_C5_amended :
    (decodeReply ["*-1"] = (.ok .null, []) ∧ decodeReply ["*0"] = (.ok (.arr []), [])) ∧
    ∀ (s : String) (n : Int) (f : Nat) (rest : List String)
      (rs : List RValue) (rest' : List String),
      parseDecInt s = some n → 0 ≤ n → n < 2 ^ 53 →
      readManyStep (readReply f) n.toNat rest = (.ok rs, rest') →
      readReply (f + 1) ((⟨'*' :: s.data⟩ : String) :: rest) = (.ok (.arr rs), rest') ∧
        rs.length = n.toNat := by
  refine ⟨⟨rfl, rfl⟩, ?_⟩
  intro s n f rest rs rest' hp h0 hlt hread
  have hjs : jsNumber s = .int n := by
    rw [jsNumber_parse s n hp, roundToDouble_self n (by omega) (by omega)]
  have hlen : jsToLength (JsNumber.int n) = n.toNat := by
    simp only [jsToLength]
    rw [if_neg (by omega)]
    omega
  rw [readReply_star, hjs, if_neg (by simp only [JsNumber.int.injEq]; omega), hlen, hread]
  exact ⟨rfl, readManyStep_length _ _ _ _ _ hread⟩

theorem claim_C5_witness :
    readReply 2 [(⟨'*' :: "2".data⟩ : String), ":1", ":2"] =
      (.ok (.arr [.num (.int 1), .num (.int 2)]), []) ∧
    ([RValue.num (.int 1), RValue.num (.int 2)].length = (2 : Int).toNat) :=
  claim_C5_amended.2 "2" 2 1 [":1", ":2"] [.num (.int 1), .num (.int 2)] []
    (by decide) (by decide) (by decide) rfl

/-- Claim C8 (counterexample): the set reply ~2 followed by two empty
arrays decodes to a set holding two elements that are equal as values (two
empty arrays): a JavaScript Set deduplicates objects by reference, not by
value, and the decoder always constructs fresh objects, so the claimed
de-duplication by value equality fails for aggregate elements. -/
theorem claim_C8_counterexample :
    decodeReply ["~2", "*0", "*0"] = (.ok (.set [.arr [], .arr []]), []) ∧
    RValue.arr [] = RValue.arr [] :=
  ⟨rfl, rfl⟩

/-- Claim C8 (amended): a set reply with declared count n (below 2^53)
reads exactly n replies and collects them with the JavaScript Set
constructor, which de-duplicates by value equality for primitive elements
only (two equal primitives appear once, proved as: the resulting list
never holds two value-equal elements of which the first is primitive);
aggregate elements are fresh objects and are never merged.  The example
reply with elements orange, apple, true, 100, 999 decodes to exactly that
set. -/
theorem claim_C8_amended :
    (decodeReply ["~5", "+orange", "+apple", "#t", ":100", ":999"] =
      (.ok (.set [.str "orange", .str "apple", .bool true,
        .num (.int 100), .num (.int 999)]), [])) ∧
    (∀ xs : List RValue,
      (jsSet xs).Pairwise fun a b => primEq a b = true → isPrimitive a = false) ∧
    ∀ (s : String) (n : Int) (f : Nat) (rest : List String)
      (rs : List RValue) (rest' : List String),
      parseDecInt s = some n → 0 ≤ n → n < 2 ^ 53 →
      readManyStep (readReply f) n.toNat rest = (.ok rs, rest') →
      readReply (f + 1) ((⟨'~' :: s.data⟩ : String) :: rest) =
        (.ok (.set (jsSet rs)), rest') ∧ rs.length = n.toNat := by
  refine ⟨rfl, fun xs => jsSet_foldl_pairwise xs [] (List.Pairwise.nil), ?_⟩
  intro s n f rest rs rest' hp h0 hlt hread
  have hjs : jsNumber s = .int n := by
    rw [jsNumber_parse s n hp, roundToDouble_self n (by omega) (by omega)]
  have hlen : jsToLength (JsNumber.int n) = n.toNat := by
    simp only [jsToLength]
    rw [if_neg (by omega)]
    omega
  rw [readReply_tilde, hjs, hlen, hread]
  exact ⟨rfl, readManyStep_length _ _ _ _ _ hread⟩

theorem claim_C8_witness :
    readReply 2 [(⟨'~' :: "2".data⟩ : String), ":1", ":1"] =
      (.ok (.set (jsSet [.num (.int 1), .num (.int 1)])), []) ∧
    ([RValue.num (.int 1), RValue.num (.int 1)].length = (2 : Int).toNat) :=
  claim_C8_amended.2.2 "2" 2 1 [":1", ":1"] [.num (.int 1), .num (.int 1)] []
    (by decide) (by decide) (by decide) rfl

/-! ## Claim C2: request encoding -/

theorem args_encoding (cmd : List Arg) :
    cmd.flatMap (fun arg =>
      utf8 ("$" ++ natText (argBytes arg).length ++ "\r\n") ++ argBytes arg ++ utf8 "\r\n") =
    (cmd.map specArgBytes).flatten := by
  induction cmd with
  | nil => rfl
  | cons a t ih =>
    simp only [List.flatMap_cons, List.map_cons, List.flatten_cons, ih]
    rw [utf8_append, utf8_append]
    simp [specArgBytes, utf8_crlf, List.append_assoc]

/-- Claim C2: for every command, the request encoder produces exactly the
bytes *N CRLF followed by, for each argument in order, a dollar line
carrying the exact byte length of the argument's encoded form (UTF-8 byte
length for text and numbers, literal byte length for binary), the raw
bytes, and a CRLF; in particular the SET k v command encodes to the
literal 27 bytes of *3 CRLF $3 CRLF SET CRLF $1 CRLF k CRLF $1 CRLF v
CRLF. -/
theorem claim_C2 :
    (∀ cmd : List Arg, createRequest cmd = specRequest cmd) ∧
    createRequest [.str "SET", .str "k", .str "v"] =
      [42, 51, 13, 10, 36, 51, 13, 10, 83, 69, 84, 13, 10,
       36, 49, 13, 10, 107, 13, 10, 36, 49, 13, 10, 118, 13, 10] := by
  refine ⟨?_, rfl⟩
  intro cmd
  unfold createRequest specRequest
  rw [utf8_append, utf8_append, args_encoding]
  simp [utf8_crlf, List.append_assoc]

/-! ## Claim C6: streamed bulk strings (first-generation decoder) -/

theorem utf8Char_ne_nil (c : Char) : utf8Char c ≠ [] := by
  simp only [utf8Char]
  split
  · simp
  · split
    · simp
    · split <;> simp

theorem utf8_ne_nil (s : String) (h : s.data ≠ []) : utf8 s ≠ [] := by
  unfold utf8
  match hd : s.data with
  | [] => exact absurd hd h
  | ch :: cs =>
    rw [List.flatMap_cons]
    intro he
    exact utf8Char_ne_nil ch (List.append_eq_nil.mp he).1

theorem natDigitsAux_ne_nil (fuel n : Nat) : natDigitsAux (fuel + 1) n ≠ [] := by
  unfold natDigitsAux
  split <;> simp

theorem natText_ne_zero (k : Nat) (hk : 1 ≤ k) : natText k ≠ "0" := by
  unfold natText
  intro he
  have hd : natDigitsAux (k + 1) k = ['0'] := congrArg String.data he
  by_cases h10 : k < 10
  · interval_cases k <;> exact absurd hd (by decide)
  · rw [show natDigitsAux (k + 1) k = natDigitsAux k (k / 10) ++ [digitChar (k % 10)] from by
      simp only [natDigitsAux]; rw [if_neg h10]] at hd
    have h1 : natDigitsAux k (k / 10) ≠ [] := by
      obtain ⟨j, rfl⟩ : ∃ j, k = j + 1 := ⟨k - 1, by omega⟩
      exact natDigitsAux_ne_nil j ((j + 1) / 10)
    have h2 := congrArg List.length hd
    simp only [List.length_append, List.length_cons, List.length_nil] at h2
    exact h1 (List.eq_nil_of_length_eq_zero (by omega))

theorem plainHead_not_semi (c : String) (h : plainHead c = true) :
    c.data.head? ≠ some ';' := by
  unfold plainHead at h
  match hd : c.data with
  | [] => rw [hd] at h; simp at h
  | ch :: cs =>
    rw [hd] at h
    simp only [Bool.not_eq_true', decide_eq_false_iff_not] at h
    simp only [List.head?_cons, ne_eq, Option.some.injEq]
    intro he
    subst he
    simp at h

theorem v1_semi_line (f : Nat) (m : String) (rest : List String) :
    v1ReadReply (f + 1) ((";" ++ m) :: rest) = (.ok (.str (";" ++ m)), rest) := rfl

theorem v1_plain_line (f : Nat) (c : String) (rest : List String)
    (h : plainHead c = true) :
    v1ReadReply (f + 1) (c :: rest) = (.ok (.str c), rest) := by
  unfold plainHead at h
  match hd : c.data with
  | [] => rw [hd] at h; simp at h
  | ch :: cs =>
    rw [hd] at h
    simp only [Bool.not_eq_true', decide_eq_false_iff_not, List.mem_cons,
      List.mem_singleton, List.not_mem_nil] at h
    push_neg at h
    show (match c.data with
      | [] => ((.ok (.str ""), rest) : Except DecodeErr RValue × List String)
      | ch :: cs => _) = (.ok (.str c), rest)
    rw [hd]
    split <;> simp_all
    rw [← hd]

theorem plainHead_ne_nil (c : String) (h : plainHead c = true) : c.data ≠ [] := by
  unfold plainHead at h
  intro he
  rw [he] at h
  simp at h

theorem string_nil_append (s : String) : "" ++ s = s := rfl

theorem readUntilStep_cons_ne
    (step : List String → Except DecodeErr RValue × List String)
    (delim : String) (fuel : Nat) (frames : List String) (v : RValue) (r : List String)
    (hstep : step frames = (.ok v, r)) (hne : rvEqStr v delim = false) :
    readUntilStep step delim (fuel + 1) frames =
      match readUntilStep step delim fuel r with
      | (.ok vs, r') => (.ok (v :: vs), r')
      | (.error e, r') => (.error e, r') := by
  simp only [readUntilStep]
  rw [hstep]
  simp [hne]

theorem v1_stream_loop : ∀ (chunks : List String) (g loopFuel : Nat) (rest : List String),
    (∀ c ∈ chunks, plainHead c = true) →
    2 * chunks.length + 1 ≤ loopFuel →
    readUntilStep (v1ReadReply (g + 1)) ";0" loopFuel (streamedFrames chunks ++ rest) =
      (.ok (chunks.flatMap fun c => [.str (";" ++ natText (utf8 c).length), .str c]), rest) := by
  intro chunks
  induction chunks with
  | nil =>
    intro g loopFuel rest hpl hf
    obtain ⟨l, rfl⟩ : ∃ l, loopFuel = l + 1 := ⟨loopFuel - 1, by omega⟩
    rfl
  | cons c cs ih =>
    intro g loopFuel rest hpl hf
    rw [List.length_cons] at hf
    obtain ⟨l, rfl⟩ : ∃ l, loopFuel = l + 1 + 1 := ⟨loopFuel - 2, by omega⟩
    have hc : plainHead c = true := hpl c (List.mem_cons_self c cs)
    have hcnil : c.data ≠ [] := plainHead_ne_nil c hc
    have hm : (";" ++ natText (utf8 c).length) ≠ ";0" := by
      intro he
      have hdd : ';' :: (natText (utf8 c).length).data = [';', '0'] := congrArg String.data he
      simp only [List.cons.injEq, true_and] at hdd
      exact natText_ne_zero (utf8 c).length
        (List.length_pos.mpr (utf8_ne_nil c hcnil)) (congrArg String.mk hdd)
    have hcsemi : c ≠ ";0" := by
      intro he
      rw [he] at hc
      exact absurd hc (by decide)
    have hfr : streamedFrames (c :: cs) ++ rest =
        (";" ++ natText (utf8 c).length) :: c :: (streamedFrames cs ++ rest) := by
      simp [streamedFrames]
    rw [hfr]
    rw [readUntilStep_cons_ne _ _ _ _ _ _ (v1_semi_line g _ _)
      (by simp only [rvEqStr]; exact decide_eq_false hm)]
    rw [readUntilStep_cons_ne _ _ _ _ _ _ (v1_plain_line g c _ hc)
      (by simp only [rvEqStr]; exact decide_eq_false hcsemi)]
    rw [ih g l rest (fun x hx => hpl x (List.mem_cons_of_mem c hx)) (by omega)]
    simp [List.flatMap_cons]

theorem v1_join_chunks : ∀ chunks : List String,
    (∀ c ∈ chunks, plainHead c = true) →
    v1JoinChunks (chunks.flatMap fun c => [.str (";" ++ natText (utf8 c).length), .str c]) =
      .ok (concatAll chunks) := by
  intro chunks
  induction chunks with
  | nil => intro _; rfl
  | cons c cs ih =>
    intro h
    have hc : plainHead c = true := h c (List.mem_cons_self c cs)
    have hsemi : ((";" ++ natText (utf8 c).length : String)).data.head? = some ';' := rfl
    have hchead := plainHead_not_semi c hc
    simp only [List.flatMap_cons, List.cons_append, List.nil_append]
    simp only [v1JoinChunks]
    rw [ih (fun x hx => h x (List.mem_cons_of_mem c hx))]
    simp [hsemi, hchead, concatAll, string_nil_append]

/-- Claim C6 (counterexample): a streamed bulk string whose single chunk
content is the two bytes ;x (declared by the marker ;2) decodes to the
empty string rather than to ;x: the decoder discards every collected line
beginning with a semicolon, so chunk contents that themselves begin with
the semicolon byte are conflated with the length markers and lost. -/
theorem claim_C6_counterexample :
    v1DecodeReply ["$?", ";2", ";x", ";0"] = (.ok (.str ""), []) ∧
    ("" : String) ≠ ";x" :=
  ⟨rfl, by decide⟩

/-- Claim C6 (amended): the example stream reassembles to "Hello word",
and for every streamed bulk string whose chunk contents are non-empty and
do not begin with a semicolon or any RESP type-prefix character, the
decoder returns the concatenation of the chunk contents in arrival order
with every semicolon-prefixed chunk-length marker discarded.  (A chunk
content beginning with a semicolon is discarded with the markers, and one
beginning with a RESP prefix is re-parsed as a reply, so such contents are
excluded.) -/
theorem claim_C6_amended :
    (v1DecodeReply ["$?", ";4", "Hell", ";5", "o wor", ";1", "d", ";0"] =
      (.ok (.str "Hello word"), [])) ∧
    ∀ (chunks : List String) (g : Nat) (rest : List String),
      (∀ c ∈ chunks, plainHead c = true) →
      2 * chunks.length + 2 ≤ g →
      v1ReadReply (g + 1) ((⟨['$', '?']⟩ : String) :: (streamedFrames chunks ++ rest)) =
        (.ok (.str (concatAll chunks)), rest) := by
  refine ⟨rfl, ?_⟩
  intro chunks g rest hpl hf
  obtain ⟨g', rfl⟩ : ∃ g', g = g' + 1 := ⟨g - 1, by omega⟩
  have hloop := v1_stream_loop chunks g' (g' + 1) rest hpl (by omega)
  have hjoin := v1_join_chunks chunks hpl
  show (match readUntilStep (v1ReadReply (g' + 1)) ";0" (g' + 1)
      (streamedFrames chunks ++ rest) with
    | (.ok rs, r) =>
      (match v1JoinChunks rs with
       | .ok t => ((.ok (.str t) : Except DecodeErr RValue), r)
       | .error e => (.error e, r))
    | (.error e, r) => (.error e, r)) = (.ok (.str (concatAll chunks)), rest)
  rw [hloop]
  simp [hjoin]

theorem claim_C6_witness :
    (∀ c ∈ ["ab"], plainHead c = true) ∧
    v1ReadReply 5 ((⟨['$', '?']⟩ : String) :: (streamedFrames ["ab"] ++ [])) =
      (.ok (.str (concatAll ["ab"])), []) :=
  ⟨by decide, claim_C6_amended.2 ["ab"] 4 [] (by decide) (by decide)⟩

/-! ## Claim C7: the readLines scanner -/

theorem scanStep_stuck : ∀ (f : Nat) (acc : List (List Nat)),
    scanStep f [97, 13, 98, 13, 10] [97, 13, 98, 13, 10] 2 1 2 acc = none
  | 0, _ => rfl
  | f + 1, acc => scanStep_stuck f acc

/-- Claim C7 (divergence): on the single physical read a CR b CR LF (a
legal stream whose one CRLF-delimited segment is a CR b), the scanner of
readLines never terminates, however much fuel it is given: when a CR has
matched (matchIndex is 1) and the following byte is not LF, the mismatch
branch changes no state, so the inner loop spins forever and the frame is
never yielded.  In contrast, a CRLF split across two physical reads and
multiple frames inside one physical read are handled as the claim states
(each buffered frame yielded, CRLF stripped, and the carry-over yielded at
end of stream). -/
theorem claim_C7_divergence :
    (∀ f : Nat, readLines f [[97, 13, 98, 13, 10]] = none) ∧
    readLines 32 [[97, 98, 13], [10, 99, 13, 10]] = some [[97, 98], [99], []] ∧
    readLines 32 [[97, 13, 10, 98, 13, 10]] = some [[97], [98], []] := by
  refine ⟨?_, rfl, rfl⟩
  intro f
  have hs : scanStep f [97, 13, 98, 13, 10] [97, 13, 98, 13, 10] 0 0 0 [] = none := by
    match f with
    | 0 => rfl
    | 1 => rfl
    | f + 2 =>
      rw [show scanStep (f + 2) [97, 13, 98, 13, 10] [97, 13, 98, 13, 10] 0 0 0 [] =
          scanStep f [97, 13, 98, 13, 10] [97, 13, 98, 13, 10] 2 1 2 [] from rfl]
      exact scanStep_stuck f []
  unfold readLines readLinesGo
  simp only [List.nil_append]
  rw [hs]

/-! ## Claim C1: the RedisClient command queue -/

theorem runOp_sent (conn : ConnState) (op : Op) :
    ((runOp conn op).2).sent = conn.sent ++ opRequest op := by
  cases op with
  | send cmd =>
    simp only [runOp, opRequest]
    split <;> rfl
  | write cmd => rfl
  | pipeline cmds =>
    simp only [runOp, opRequest]
    split <;> rfl

theorem runSequential_sent : ∀ (ops : List Op) (conn : ConnState),
    ((runSequential conn ops).2).sent = conn.sent ++ ops.flatMap opRequest := by
  intro ops
  induction ops with
  | nil => intro conn; simp [runSequential]
  | cons op ops ih =>
    intro conn
    simp only [runSequential, List.flatMap_cons]
    rcases hop : runOp conn op with ⟨r, conn'⟩
    have hsent : conn'.sent = conn.sent ++ opRequest op := by
      rw [show conn' = (runOp conn op).2 from by rw [hop]]
      exact runOp_sent conn op
    rcases hseq : runSequential conn' ops with ⟨res, conn''⟩
    have h1 := ih conn'
    rw [hseq] at h1
    have h2 : conn''.sent = conn'.sent ++ ops.flatMap opRequest := h1
    rw [h2, hsent, List.append_assoc]

theorem runClient_eq_sequential : ∀ (ops : List Op) (conn : ConnState),
    (∀ r ∈ (runSequential conn ops).1, ∃ v, r = .ok v) →
    runClient conn ops = runSequential conn ops := by
  intro ops
  unfold runClient
  induction ops with
  | nil => intro conn _; rfl
  | cons op ops ih =>
    intro conn h
    rcases hop : runOp conn op with ⟨r, conn'⟩
    have hmem : r ∈ (runSequential conn (op :: ops)).1 := by
      simp only [runSequential, hop]
      rcases runSequential conn' ops with ⟨res, conn''⟩
      simp
    obtain ⟨v, rfl⟩ := h r hmem
    have htail : ∀ x ∈ (runSequential conn' ops).1, ∃ w, x = .ok w := by
      intro x hx
      apply h
      simp only [runSequential, hop]
      rcases hseq : runSequential conn' ops with ⟨res, conn''⟩
      rw [hseq] at hx
      simp only [List.mem_cons]
      exact Or.inr hx
    have hrec := ih conn' htail
    simp only [runQueue, runSequential, hop, hrec]

/-- Claim C1 (counterexample): two callers sequence sendCommand calls on
one client; the server answers the first with -ERR bad and would answer
the second with +OK.  The promise chain this.queue = this.queue.then(task)
is rejected by the first failure, so the second caller's task never runs:
its request is never written (only one request reaches the connection, and
the +OK frame is never read) and the second caller receives the first
caller's error instead of the OK reply its own command would have
produced — cross-talk between callers. -/
theorem claim_C1_counterexample :
    runClient ⟨[], ["-ERR bad", "+OK"]⟩ [.send [.str "PING"], .send [.str "PING"]] =
      ([.error (.server "ERR bad"), .error (.server "ERR bad")],
        ⟨createRequest [.str "PING"], ["+OK"]⟩) ∧
    decodeReply ["+OK"] = (.ok (.str "OK"), []) ∧
    (Except.error (DecodeErr.server "ERR bad") ≠
      (Except.ok (RValue.str "OK") : Except DecodeErr RValue)) :=
  ⟨rfl, rfl, fun h => nomatch h⟩

/-- Claim C1 (amended): under the sequential abstraction of the promise
chain (tasks run one at a time, in submission order), as long as every
operation succeeds, the queue delivers to each caller exactly the outcome
of its own operation in FIFO order (runClient coincides with the reference
runSequential semantics), and the requests of all operations are written
to the connection back to back in submission order; once an operation
fails, the rejected chain skips every later task and delivers the earlier
failure to all later callers. -/
theorem claim_C1_amended :
    (∀ (conn : ConnState) (ops : List Op),
      (∀ r ∈ (runSequential conn ops).1, ∃ v, r = .ok v) →
      runClient conn ops = runSequential conn ops) ∧
    ∀ (conn : ConnState) (ops : List Op),
      ((runSequential conn ops).2).sent = conn.sent ++ ops.flatMap opRequest :=
  ⟨fun conn ops h => runClient_eq_sequential ops conn h,
    fun conn ops => runSequential_sent ops conn⟩

theorem claim_C1_witness :
    runClient ⟨[], ["+PONG"]⟩ [.send [.str "PING"]] =
      runSequential ⟨[], ["+PONG"]⟩ [.send [.str "PING"]] :=
  claim_C1_amended.1 ⟨[], ["+PONG"]⟩ [.send [.str "PING"]] (by
    intro r hr
    rw [show (runSequential ⟨[], ["+PONG"]⟩ [.send [.str "PING"]]).1 =
      [.ok (.str "PONG")] from rfl] at hr
    rw [List.mem_singleton] at hr
    exact ⟨.str "PONG", hr⟩)
